import Mathlib

/-!
# Verification of the CSS-like selector engine (`qualifier.py`)

Shallow embedding of `src/qualifier/qualifier.py`: the `Selector` parser
(single-pass mode + accumulator state machine), the `Selectors` list,
the per-node match test, and the pre-order tree traversal
(`verify_node` / `query_selector_all`), together with proofs of the
specified properties.

Python strings are modelled as Lean `String` (operated on through their
character lists), Python `set[str]` as `Finset String`, and the external
`Node` collaborator as a rose tree with an association list of attributes.
-/


namespace Qualifier

/-- Modelled from the spec: the external `Node` collaborator (imported from
the `node` module, which is not among the repository's source files).  Per the
spec it exposes a tag name (string), an attribute mapping (string key →
string value, keys unique), and an ordered sequence of child nodes. -/
inductive Node where
  | mk (tag : String) (attributes : List (String × String)) (children : List Node)

/-- Tag-name accessor of a node. -/
def Node.tag : Node → String
  | .mk t _ _ => t

/-- Attribute mapping of a node, as an association list with unique keys. -/
def Node.attributes : Node → List (String × String)
  | .mk _ a _ => a

/-- Ordered child sequence of a node. -/
def Node.children : Node → List Node
  | .mk _ _ c => c

/-- Embedding of `node.attributes.get(key)`: lookup of an attribute by key, `none` when
the key is absent (Python's `dict.get` default). -/
def attrGet (n : Node) (key : String) : Option String :=
  n.attributes.lookup key

/-- Python's `str.split(sep)` for a one-character separator, on character
lists: splits at every occurrence of the separator, keeping empty pieces,
and always yields at least one piece (generalized to an arbitrary
character predicate so that the spec-side whitespace split can reuse it). -/
def pySplitP (p : Char → Bool) : List Char → List (List Char)
  | [] => [[]]
  | c :: rest =>
    match pySplitP p rest with
    | [] => [[]]
    | t :: ts => if p c then [] :: t :: ts else (c :: t) :: ts

/-- Python's `str.strip()` on character lists: drop whitespace characters
from both ends. -/
def pyStrip (l : List Char) : List Char :=
  ((l.dropWhile Char.isWhitespace).reverse.dropWhile Char.isWhitespace).reverse

/-- The three parser modes of `qualifier.Mode` (an `IntEnum` in the source;
the numeric values are never used). -/
inductive Mode where
  | ID
  | CLASS
  | TAG
deriving DecidableEq

/-- Embedding of `qualifier.Selector`: one atomic selector clause — required id (`id_`),
required class set (`klass`), required tag (`tag`); empty means
unconstrained. -/
structure Selector where
  id_ : String := ""
  klass : Finset String := ∅
  tag : String := ""
deriving DecidableEq

/-- Embedding of `Selector.update_by_mode`: flush the accumulator `chars` into the field
selected by `mode`; a no-op when the accumulator is empty.  The source
mutates `self` and clears `chars`; here the updated selector is returned and
the caller continues with an empty accumulator. -/
def Selector.update_by_mode (s : Selector) (mode : Mode) (chars : List Char) : Selector :=
  if chars.length = 0 then s
  else
    let value := String.mk chars
    match mode with
    | Mode.ID => { s with id_ := value }
    | Mode.CLASS => { s with klass := insert value s.klass }
    | Mode.TAG => { s with tag := value }

/-- The character loop of `Selector.from_str`: scan the remaining characters,
flushing on `.` (switch to CLASS mode) and `#` (switch to ID mode),
accumulating every other character, with a final flush at end of input. -/
def Selector.fromStrAux (sel : Selector) (mode : Mode) (chars : List Char) :
    List Char → Selector
  | [] => sel.update_by_mode mode chars
  | ch :: rest =>
    if ch = '.' then
      Selector.fromStrAux (sel.update_by_mode mode chars) Mode.CLASS [] rest
    else if ch = '#' then
      Selector.fromStrAux (sel.update_by_mode mode chars) Mode.ID [] rest
    else
      Selector.fromStrAux sel mode (chars ++ [ch]) rest

/-- Embedding of `Selector.from_str`: parse one selector clause, starting from the default
(universal) selector in TAG mode with an empty accumulator. -/
def Selector.from_str (selector : String) : Selector :=
  Selector.fromStrAux {} Mode.TAG [] selector.data

/-- The node's class-token set as computed inside `Selector.match_node`:
`node.attributes.get("class", "")` split on the space character, each piece
stripped, empty pieces discarded, collected into a set. -/
def nodeClassSet (n : Node) : Finset String :=
  let classes := pySplitP (fun c => c == ' ') ((attrGet n "class").getD "").data
  ((((classes.map pyStrip).filter (fun t => t ≠ [])).map String.mk)).toFinset

/-- Embedding of `Selector.match_node`: the three checks of the source — tag (empty or
equal), id (empty or equal to the `id` attribute, a missing attribute being
`none`), class (empty set or subset of the node's class-token set) — combined
with logical AND. -/
def Selector.match_node (s : Selector) (n : Node) : Bool :=
  let matched_tag := if s.tag ≠ "" ∧ s.tag ≠ n.tag then false else true
  let id_ := attrGet n "id"
  let matched_id := if s.id_ ≠ "" ∧ some s.id_ ≠ id_ then false else true
  let class_set := nodeClassSet n
  let matched_class := if s.klass.card ≠ 0 ∧ ¬ s.klass ⊆ class_set then false else true
  matched_tag && matched_id && matched_class

/-- Embedding of `qualifier.Selectors`: the ordered selector list, one member per
comma-separated clause. -/
structure Selectors where
  items : List Selector
deriving DecidableEq

/-- Embedding of `Selectors.from_str`: split the input on commas, strip each piece, and
parse each piece independently with `Selector.from_str`. -/
def Selectors.from_str (selectors_str : String) : Selectors :=
  ⟨(pySplitP (fun c => c == ',') selectors_str.data).map
    (fun piece => Selector.from_str (String.mk (pyStrip piece)))⟩

/-- Embedding of `Selectors.match_node`: a node matches the list iff any member selector
matches it (Python's `any`). -/
def Selectors.match_node (ss : Selectors) (n : Node) : Bool :=
  ss.items.any (fun sel => sel.match_node n)

mutual

/-- Embedding of `qualifier.verify_node`: append the node to the accumulator when the
selector list matches it, then recurse into the children left to right.  The
source threads the accumulator `matched` by mutation; here it is passed and
returned explicitly. -/
def verify_node (n : Node) (sel : Selectors) (matched : List Node) : List Node :=
  match n with
  | .mk t a cs =>
    let m :=
      if sel.match_node (.mk t a cs) then matched ++ [Node.mk t a cs] else matched
    verify_children cs sel m

/-- The `for child in node.children` loop of `verify_node`, folding the
accumulator through the children in order. -/
def verify_children (cs : List Node) (sel : Selectors) (matched : List Node) :
    List Node :=
  match cs with
  | [] => matched
  | c :: rest => verify_children rest sel (verify_node c sel matched)

end

/-- Embedding of `qualifier.query_selector_all`: parse the selector string and collect all
matching nodes of the tree rooted at `node` by the pre-order walk. -/
def query_selector_all (node : Node) (selector : String) : List Node :=
  verify_node node (Selectors.from_str selector) []

mutual

/-- The pre-order node sequence of a tree: the root, then the pre-order
sequences of the children, left to right.  (Reference definition used to
state traversal properties; not itself part of the source.) -/
def preorder (n : Node) : List Node :=
  match n with
  | .mk t a cs => Node.mk t a cs :: preorderList cs

/-- Concatenated pre-order sequences of a list of sibling trees. -/
def preorderList (cs : List Node) : List Node :=
  match cs with
  | [] => []
  | c :: rest => preorder c ++ preorderList rest

end

/-- The id value a node is treated as having: its `id` attribute, or the
empty string when the attribute is absent. -/
def nodeIdValue (n : Node) : String :=
  (attrGet n "id").getD ""

/-- The class-token recipe exactly as the spec words it: split the class
attribute value on whitespace (any whitespace character), trim each token,
and discard empty tokens. -/
def classTokensWhitespaceSplit (value : String) : Finset String :=
  ((((pySplitP Char.isWhitespace value.data).map pyStrip).filter
      (fun t => t ≠ [])).map String.mk).toFinset

/-- The amended class-token recipe: split the class attribute value on the
space character only, trim each token, and discard empty tokens. -/
def classTokensSpaceSplit (value : String) : Finset String :=
  ((((pySplitP (fun c => c == ' ') value.data).map pyStrip).filter
      (fun t => t ≠ [])).map String.mk).toFinset

/-- Flushing an empty accumulator leaves the selector unchanged. -/
theorem update_by_mode_nil (s : Selector) (m : Mode) :
    s.update_by_mode m [] = s := rfl

/-- Splitting never produces an empty piece list. -/
theorem pySplitP_ne_nil (p : Char → Bool) (l : List Char) :
    pySplitP p l ≠ [] := by
  induction l with
  | nil => simp [pySplitP]
  | cons c rest ih =>
    unfold pySplitP
    cases h : pySplitP p rest with
    | nil => simp
    | cons t ts => by_cases hc : p c <;> simp [hc]

mutual

/-- The traversal `verify_node` appends exactly the matching nodes of the subtree, in
pre-order, to the incoming accumulator. -/
theorem verify_node_eq (n : Node) (sel : Selectors) (matched : List Node) :
    verify_node n sel matched =
      matched ++ (preorder n).filter (fun x => sel.match_node x) := by
  match n with
  | .mk t a cs =>
    rw [verify_node, preorder]
    rw [verify_children_eq cs sel _]
    by_cases h : sel.match_node (Node.mk t a cs) <;>
      simp [h, List.filter_cons]

/-- The child loop appends exactly the matching nodes of the sibling forest,
in pre-order, to the incoming accumulator. -/
theorem verify_children_eq (cs : List Node) (sel : Selectors) (matched : List Node) :
    verify_children cs sel matched =
      matched ++ (preorderList cs).filter (fun x => sel.match_node x) := by
  match cs with
  | [] => rw [verify_children, preorderList]; simp
  | c :: rest =>
    rw [verify_children, preorderList]
    rw [verify_node_eq c sel matched, verify_children_eq rest sel _]
    simp

end

/-- Characterization of the per-node match test as the conjunction of the
three checks. -/
theorem match_node_iff (s : Selector) (n : Node) :
    s.match_node n = true ↔
      (s.tag = "" ∨ s.tag = n.tag) ∧
      (s.id_ = "" ∨ s.id_ = nodeIdValue n) ∧
      (s.klass = ∅ ∨ s.klass ⊆ nodeClassSet n) := by
  unfold Selector.match_node nodeIdValue
  by_cases h1 : s.tag ≠ "" ∧ s.tag ≠ n.tag <;>
    by_cases h3 : s.klass.card ≠ 0 ∧ ¬ s.klass ⊆ nodeClassSet n <;>
      cases hid : attrGet n "id" with
      | none =>
        by_cases h2 : s.id_ ≠ "" ∧ some s.id_ ≠ (none : Option String) <;>
          simp_all [Finset.card_eq_zero, and_assoc]
      | some v =>
        by_cases h2 : s.id_ ≠ "" ∧ some s.id_ ≠ some v <;>
          simp_all [Finset.card_eq_zero, and_assoc]

/-- The universal selector (all three fields unset). -/
theorem match_node_universal (n : Node) :
    Selector.match_node ⟨"", ∅, ""⟩ n = true := by
  rw [match_node_iff]
  simp

/-- Parsing the empty clause yields the universal selector. -/
theorem from_str_empty : Selector.from_str "" = ⟨"", ∅, ""⟩ := rfl

/-- Parsing the empty selector-list string yields the one-member list holding
the universal selector. -/
theorem selectors_from_str_empty :
    Selectors.from_str "" = ⟨[⟨"", ∅, ""⟩]⟩ := rfl

/-- The query `query_selector_all` is the pre-order sequence filtered by the parsed
selector list. -/
theorem query_eq_filter (root : Node) (s : String) :
    query_selector_all root s =
      (preorder root).filter (fun x => (Selectors.from_str s).match_node x) := by
  unfold query_selector_all
  rw [verify_node_eq]
  simp

/-- C1: for every tree root and selector string, `query_selector_all` returns
exactly the nodes of the tree that match the parsed SelectorList, in
pre-order depth-first visitation order (node before its children, children
left to right), with the root itself eligible, the entire tree visited, and
each node contributing at most once: the result is precisely the pre-order
node sequence filtered by the match test. -/
theorem query_selector_all_spec (root : Node) (selector : String) :
    query_selector_all root selector =
      (preorder root).filter (fun x => (Selectors.from_str selector).match_node x) :=
  query_eq_filter root selector

/-- C2: a Selector matches a node iff all three checks pass — tag empty or
exactly equal, id empty or exactly equal to the node's id value (missing id
attribute treated as the empty id value), class set empty or a subset of the
node's class-token set. -/
theorem match_node_three_checks (s : Selector) (n : Node) :
    s.match_node n = true ↔
      (s.tag = "" ∨ s.tag = n.tag) ∧
      (s.id_ = "" ∨ s.id_ = nodeIdValue n) ∧
      (s.klass = ∅ ∨ s.klass ⊆ nodeClassSet n) :=
  match_node_iff s n

/-- C3 counterexample: the code's class-token set is NOT the
split-on-whitespace recipe — for a node with `class="a\tb"` (a tab between
the letters) the code keeps the single token `"a\tb"` while splitting on
whitespace would give `{"a", "b"}`. -/
theorem nodeClassSet_ne_whitespace_split :
    nodeClassSet (Node.mk "div" [("class", "a\tb")] []) ≠
      classTokensWhitespaceSplit
        ((attrGet (Node.mk "div" [("class", "a\tb")] []) "class").getD "") := by
  decide

/-- C3 (amended): the class-token set is obtained by splitting the node's
class attribute value on the space character, trimming each token, and
discarding empty tokens; a node whose class attribute is `"a   b"` matches
the selector `".a.b"`, and a node with no class attribute has the empty
class-token set. -/
theorem nodeClassSet_space_split :
    (∀ n : Node, nodeClassSet n = classTokensSpaceSplit ((attrGet n "class").getD "")) ∧
    (Selector.from_str ".a.b").match_node (Node.mk "div" [("class", "a   b")] []) = true ∧
    (∀ (t : String) (a : List (String × String)) (cs : List Node),
      List.lookup "class" a = none → nodeClassSet (Node.mk t a cs) = ∅) := by
  refine ⟨fun n => rfl, by decide, ?_⟩
  intro t a cs h
  unfold nodeClassSet
  rw [show attrGet (Node.mk t a cs) "class" = none from h]
  rfl

/-- C3 witness: the amended theorem applied to a concrete node with no class
attribute. -/
theorem nodeClassSet_space_split_witness :
    nodeClassSet (Node.mk "p" [("id", "x")] []) = ∅ :=
  nodeClassSet_space_split.2.2 "p" [("id", "x")] [] rfl

/-- C4: selector-list parsing splits the input on commas, trims each piece,
and parses each piece independently into the ordered list; the list matches a
node iff some member matches; and a whitespace-only (or empty) piece parses
to the universal selector. -/
theorem selectors_from_str_spec (s : String) (n : Node) :
    (Selectors.from_str s).items =
      (pySplitP (fun c => c == ',') s.data).map
        (fun piece => Selector.from_str (String.mk (pyStrip piece))) ∧
    ((Selectors.from_str s).match_node n = true ↔
      ∃ sel ∈ (Selectors.from_str s).items, sel.match_node n = true) ∧
    (∀ piece : List Char, (∀ c ∈ piece, c.isWhitespace) →
      Selector.from_str (String.mk (pyStrip piece)) = ⟨"", ∅, ""⟩) := by
  refine ⟨rfl, ?_, ?_⟩
  · simp [Selectors.match_node, List.any_eq_true]
  · intro piece h
    have hdrop : piece.dropWhile Char.isWhitespace = [] :=
      List.dropWhile_eq_nil_iff.mpr h
    have hstrip : pyStrip piece = [] := by simp [pyStrip, hdrop]
    rw [hstrip]
    rfl

/-- C4 witness: the theorem applied to the concrete list "div, p" and a
concrete `p` node, and to the whitespace-only piece `"   "`. -/
theorem selectors_from_str_spec_witness :
    ((Selectors.from_str "div, p").match_node (Node.mk "p" [] []) = true ↔
      ∃ sel ∈ (Selectors.from_str "div, p").items,
        sel.match_node (Node.mk "p" [] []) = true) ∧
    Selector.from_str (String.mk (pyStrip "   ".data)) = ⟨"", ∅, ""⟩ :=
  ⟨(selectors_from_str_spec "div, p" (Node.mk "p" [] [])).2.1,
   (selectors_from_str_spec "div, p" (Node.mk "p" [] [])).2.2 "   ".data (by decide)⟩

/-- C5: selector parsing is deterministic (equal inputs give equal Selectors)
and total — the embedding is a total function with no failure path, and the
empty string yields the universal selector. -/
theorem from_str_total_deterministic :
    (∀ s t : String, s = t → Selector.from_str s = Selector.from_str t) ∧
    Selector.from_str "" = ⟨"", ∅, ""⟩ :=
  ⟨fun _ _ h => h ▸ rfl, rfl⟩

/-- C5 witness: determinism at a concrete input. -/
theorem from_str_total_deterministic_witness :
    Selector.from_str "div.x" = Selector.from_str "div.x" :=
  from_str_total_deterministic.1 "div.x" "div.x" rfl

/-- C6: flushing an empty accumulator is a no-op that neither overwrites nor
clears anything, and parsing "div", "div." and "div.." all yield the
selector with tag "div" and no spurious empty class member. -/
theorem flush_empty_noop :
    (∀ (s : Selector) (m : Mode), s.update_by_mode m [] = s) ∧
    Selector.from_str "div" = ⟨"", ∅, "div"⟩ ∧
    Selector.from_str "div." = ⟨"", ∅, "div"⟩ ∧
    Selector.from_str "div.." = ⟨"", ∅, "div"⟩ :=
  ⟨update_by_mode_nil, by decide, by decide, by decide⟩

/-- C7: parsing "div.container#topDiv" and "div#topDiv.container" gives the
same Selector — tag "div", id "topDiv", classes {"container"}. -/
theorem parse_order_independent :
    Selector.from_str "div.container#topDiv" = Selector.from_str "div#topDiv.container" ∧
    Selector.from_str "div.container#topDiv" = ⟨"topDiv", {"container"}, "div"⟩ := by
  constructor <;> decide

/-- C8: the all-unset Selector matches every node, and querying with the
empty selector string returns every node of the tree, root included, in
pre-order. -/
theorem universal_selector_spec :
    (∀ n : Node, Selector.match_node ⟨"", ∅, ""⟩ n = true) ∧
    (∀ root : Node, query_selector_all root "" = preorder root) := by
  refine ⟨match_node_universal, fun root => ?_⟩
  rw [query_eq_filter]
  refine List.filter_eq_self.mpr ?_
  intro a _
  rw [selectors_from_str_empty]
  simp [Selectors.match_node, match_node_universal]

/-- C9: a query never changes the tree — in this pure embedding every
function only reads its `Node` arguments; substantiated by: the match test
depends only on the node's tag, `id` attribute and `class` attribute, and
every returned node is a node of the input tree. -/
theorem query_no_mutation :
    (∀ (s : Selector) (n n' : Node),
      n.tag = n'.tag → attrGet n "id" = attrGet n' "id" →
        attrGet n "class" = attrGet n' "class" →
        s.match_node n = s.match_node n') ∧
    (∀ (root : Node) (sel : String) (x : Node),
      x ∈ query_selector_all root sel → x ∈ preorder root) := by
  constructor
  · intro s n n' h1 h2 h3
    simp only [Selector.match_node, nodeClassSet, h1, h2, h3]
  · intro root sel x hx
    rw [query_eq_filter] at hx
    exact (List.mem_filter.mp hx).1

/-- C9 witness: the read-dependence part applied to two concrete nodes that
agree on tag and attributes but differ in children. -/
theorem query_no_mutation_witness :
    Selector.match_node ⟨"", ∅, "p"⟩ (Node.mk "p" [] []) =
      Selector.match_node ⟨"", ∅, "p"⟩ (Node.mk "p" [] [Node.mk "div" [] []]) :=
  query_no_mutation.1 ⟨"", ∅, "p"⟩ (Node.mk "p" [] []) (Node.mk "p" [] [Node.mk "div" [] []]) rfl rfl rfl

/-- C10: for every input string the parsed SelectorList has at least one
member, because splitting any string on commas yields at least one piece. -/
theorem selectors_nonempty (s : String) :
    (Selectors.from_str s).items ≠ [] ∧ 1 ≤ (Selectors.from_str s).items.length := by
  have h : pySplitP (fun c => c == ',') s.data ≠ [] := pySplitP_ne_nil _ _
  have hne : (Selectors.from_str s).items ≠ [] := by
    simp only [Selectors.from_str]
    simpa using h
  exact ⟨hne, List.length_pos.mpr hne⟩

end Qualifier
